import Mathlib

set_option maxRecDepth 100000

/-!
Verification of the workflow graph model, validation engine, template
catalog and persistence adapter of the `comfy-mcp-server` repository
(`src/comfy_mcp_server/tools/workflow.py` and `src/comfy_mcp_server/models.py`).

Python JSON-like values are shallowly embedded as the inductive type `Json`;
Python dicts are association lists with unique keys (Python dicts preserve
insertion order and have unique keys by construction).  Python exceptions are
modelled with `Except PyErr`.  Object identity (needed for the template
deep-copy claim) is modelled separately with an explicit heap of cells.
-/

/-- A Python value as produced by `json.loads` / present in the workflow
dicts: `None`, `bool`, `int`, `float` (a dyadic/decimal rational in every
case arising here), `str`, `list`, `dict` with string keys. -/
inductive Json where
  | null
  | bool (b : Bool)
  | int (n : Int)
  | float (q : Rat)
  | str (s : String)
  | arr (xs : List Json)
  | obj (kvs : List (String × Json))
deriving Repr

/-- Python exception classes that the modelled code can raise. -/
inductive PyErr where
  | typeError
  | keyError
  | attributeError
  | jsonDecodeError
  | validationError
deriving DecidableEq, Repr

mutual

/-- Structural (deep) equality test on `Json`, used to state closed
disequalities (Lean cannot derive `DecidableEq` for this nested inductive). -/
def Json.beq : Json → Json → Bool
  | .null, .null => true
  | .bool a, .bool b => a == b
  | .int a, .int b => a == b
  | .float a, .float b => a == b
  | .str a, .str b => a == b
  | .arr a, .arr b => Json.beqList a b
  | .obj a, .obj b => Json.beqObj a b
  | _, _ => false

/-- Elementwise `Json.beq` on lists. -/
def Json.beqList : List Json → List Json → Bool
  | [], [] => true
  | x :: xs, y :: ys => Json.beq x y && Json.beqList xs ys
  | _, _ => false

/-- Entrywise `Json.beq` on key-value lists. -/
def Json.beqObj : List (String × Json) → List (String × Json) → Bool
  | [], [] => true
  | (k, v) :: xs, (k2, v2) :: ys => k == k2 && Json.beq v v2 && Json.beqObj xs ys
  | _, _ => false

end

/-- A workflow graph: a Python dict mapping node-id strings to node values
(insertion-ordered association list with unique keys). -/
abbrev Graph := List (String × Json)

/-- A single-quote character as a string (used by Python `repr` of strings
and by the f-strings in the source). -/
def sQuote : String := "\x27"

/-- `charsLead a b` : `a` is a leading segment of `b` (character lists). -/
def charsLead : List Char → List Char → Bool
  | [], _ => true
  | _ :: _, [] => false
  | a :: as, b :: bs => a == b && charsLead as bs

/-- `charsSub needle hay` : `needle` occurs contiguously inside `hay`. -/
def charsSub (needle : List Char) : List Char → Bool
  | [] => needle.isEmpty
  | h :: t => charsLead needle (h :: t) || charsSub needle t

/-- Python `needle in hay` on strings: substring containment. -/
def strHasSub (hay needle : String) : Bool := charsSub needle.data hay.data

/-- Python `s.endswith(t)`. -/
def strEndsWith (s t : String) : Bool := charsLead t.data.reverse s.data.reverse

/-- Smallest decimal shift of a rational: returns `(m, k)` with
`q = m / 10^k` and minimal such `k` (up to the fuel), used to print floats
the way Python prints the exact decimal values arising in this codebase. -/
def floatFix (q : Rat) : Nat → Option (Int × Nat)
  | 0 => none
  | fuel + 1 =>
      if q.den = 1 then some (q.num, 0)
      else (floatFix (mkRat (q.num * 10) q.den) fuel).map (fun p => (p.1, p.2 + 1))

/-- Decimal rendering of a Python float.  Model of `repr`/`str` on floats:
exact for the decimal-literal values occurring in this repository (Python
prints the shortest round-tripping decimal, which for a value parsed from a
short decimal literal is that literal). -/
def floatStr (q : Rat) : String :=
  match floatFix q 64 with
  | none => "0.0"
  | some (m, k) =>
      let sign := if m < 0 then "-" else ""
      let digits := toString m.natAbs
      if k = 0 then sign ++ digits ++ ".0"
      else
        let ds := digits.data
        if ds.length ≤ k then
          sign ++ "0." ++ String.mk (List.replicate (k - ds.length) (Char.ofNat 48)) ++ digits
        else
          sign ++ String.mk (ds.take (ds.length - k)) ++ "." ++ String.mk (ds.drop (ds.length - k))

mutual

/-- Python `repr` of a value.  String escaping inside `repr` is approximated
(plain single-quoted rendering); no claim depends on `repr` of a string that
needs escapes. -/
def pyRepr : Json → String
  | .null => "None"
  | .bool true => "True"
  | .bool false => "False"
  | .int n => toString n
  | .float q => floatStr q
  | .str s => sQuote ++ s ++ sQuote
  | .arr xs => "[" ++ pyReprList xs ++ "]"
  | .obj kvs => "\x7b" ++ pyReprObj kvs ++ "\x7d"

/-- Comma-separated `repr` of list elements. -/
def pyReprList : List Json → String
  | [] => ""
  | [x] => pyRepr x
  | x :: y :: rest => pyRepr x ++ ", " ++ pyReprList (y :: rest)

/-- Comma-separated `repr` of dict items. -/
def pyReprObj : List (String × Json) → String
  | [] => ""
  | [(k, v)] => sQuote ++ k ++ sQuote ++ ": " ++ pyRepr v
  | (k, v) :: p :: rest => sQuote ++ k ++ sQuote ++ ": " ++ pyRepr v ++ ", " ++ pyReprObj (p :: rest)

end

/-- Python `str(v)`: the string itself for strings, `repr`-style rendering
otherwise (`str(0) = "0"`, `str(True) = "True"`, `str(None) = "None"`). -/
def pyStr : Json → String
  | .str s => s
  | v => pyRepr v

/-- Python `needle in v` (membership test): key membership for dicts,
substring for strings, element membership for lists; raises `TypeError`
for non-container values (`None`, booleans, numbers). -/
def pyContains (v : Json) (needle : String) : Except PyErr Bool :=
  match v with
  | .obj kvs => .ok (kvs.any (fun kv => kv.1 == needle))
  | .str s => .ok (strHasSub s needle)
  | .arr xs => .ok (xs.any (fun x => match x with | .str t => t == needle | _ => false))
  | _ => throw .typeError

/-- Python `v[k]` with a string key: dict lookup (`KeyError` when absent);
`TypeError` for every other value (string/list indices must be integers,
scalars are not subscriptable). -/
def pyGetItem (v : Json) (k : String) : Except PyErr Json :=
  match v with
  | .obj kvs =>
      match kvs.lookup k with
      | some x => .ok x
      | none => throw .keyError
  | _ => throw .typeError

/-- Python `v.items()`: dict items; `AttributeError` on any other value. -/
def pyItems : Json → Except PyErr (List (String × Json))
  | .obj kvs => .ok kvs
  | _ => throw .attributeError

/-- Python `d[k] = v` on a dict represented as an association list: replace
the value at the first occurrence of `k` in place, else append. -/
def dictSet {α : Type} (kvs : List (String × α)) (k : String) (v : α) : List (String × α) :=
  match kvs with
  | [] => [(k, v)]
  | (k2, v2) :: rest => if k2 == k then (k, v) :: rest else (k2, v2) :: dictSet rest k v

/-- The `"empty"` template graph. -/
def templateEmpty : Graph := []

/-- The `"fal-flux-dev"` template graph. -/
def templateDev : Graph :=
  [ ("1", .obj [("class_type", .str "RemoteCheckpointLoader_fal"),
                ("inputs", .obj [("ckpt_name", .str "fal-ai/flux/dev")])]),
    ("2", .obj [("class_type", .str "StringInput_fal"),
                ("inputs", .obj [("text", .str "A beautiful landscape")])]),
    ("3", .obj [("class_type", .str "IntegerInput_fal"),
                ("inputs", .obj [("value", .int 1024)])]),
    ("4", .obj [("class_type", .str "IntegerInput_fal"),
                ("inputs", .obj [("value", .int 1024)])]),
    ("5", .obj [("class_type", .str "IntegerInput_fal"),
                ("inputs", .obj [("value", .int 28)])]),
    ("6", .obj [("class_type", .str "FloatInput_fal"),
                ("inputs", .obj [("value", .float (mkRat 7 2))])]),
    ("7", .obj [("class_type", .str "SaveImage_fal"),
                ("inputs", .obj [("filename_prefix", .str "flux_output"),
                                 ("images", .arr [.str "1", .int 0])])]) ]

/-- The `"fal-flux-schnell"` template graph. -/
def templateSchnell : Graph :=
  [ ("1", .obj [("class_type", .str "RemoteCheckpointLoader_fal"),
                ("inputs", .obj [("ckpt_name", .str "fal-ai/flux/schnell")])]),
    ("2", .obj [("class_type", .str "StringInput_fal"),
                ("inputs", .obj [("text", .str "A beautiful landscape")])]),
    ("3", .obj [("class_type", .str "SaveImage_fal"),
                ("inputs", .obj [("filename_prefix", .str "flux_schnell"),
                                 ("images", .arr [.str "1", .int 0])])]) ]

/-- The `TEMPLATES` dict of `tools/workflow.py`, verbatim (with its three
entry graphs named above). -/
def TEMPLATES : List (String × Graph) :=
  [("empty", templateEmpty), ("fal-flux-dev", templateDev), ("fal-flux-schnell", templateSchnell)]

/-- Result dict of `validate_workflow`. -/
structure VResult where
  valid : Bool
  node_count : Nat
  issues : List String
deriving DecidableEq, Repr

/-- The "references non-existent node" issue string of `validate_workflow`. -/
def connIssue (node_id input_name ref : String) : String :=
  "Node " ++ node_id ++ "." ++ input_name ++ ": references non-existent node " ++ ref

/-- The connection check of `validate_workflow`: the Python loop over
`node["inputs"].items()` that appends a "references non-existent node"
issue for every value that is a list of exactly two elements whose first
element, coerced with `str(...)`, is not among the collected node ids. -/
def connFold (node_ids : List String) (node_id : String)
    (items : List (String × Json)) : List String :=
  items.foldl
    (fun acc it =>
      match it.2 with
      | .arr [v0, _] =>
          let ref := pyStr v0
          if node_ids.contains ref then acc else acc ++ [connIssue node_id it.1 ref]
      | _ => acc) []

/-- The per-node body of the `validate_workflow` loop, verbatim from the
source: the two required-field checks (Python `in` on the node value, which
raises `TypeError` for non-container nodes), then, when `"inputs" in node`,
the connection check over `node["inputs"].items()`.  Exception propagation
is written as explicit `match` on each `Except`. -/
def validateNode (node_ids : List String) (node_id : String) (node : Json) :
    Except PyErr (List String) :=
  match pyContains node "class_type" with
  | .error e => .error e
  | .ok hasCT =>
      let i1 := if hasCT then [] else ["Node " ++ node_id ++ ": missing class_type"]
      match pyContains node "inputs" with
      | .error e => .error e
      | .ok hasInputs =>
          let i2 := i1 ++ (if hasInputs then [] else ["Node " ++ node_id ++ ": missing inputs"])
          if hasInputs then
            match pyGetItem node "inputs" with
            | .error e => .error e
            | .ok inputsVal =>
                match pyItems inputsVal with
                | .error e => .error e
                | .ok items => .ok (i2 ++ connFold node_ids node_id items)
          else .ok i2

/-- The `for node_id, node in workflow.items()` loop of `validate_workflow`:
issues are appended node by node in insertion order; the first exception
raised by a node body propagates. -/
def collectIssues (node_ids : List String) : Graph → Except PyErr (List String)
  | [] => .ok []
  | kv :: rest =>
      match validateNode node_ids kv.1 kv.2 with
      | .error e => .error e
      | .ok i =>
          match collectIssues node_ids rest with
          | .error e => .error e
          | .ok more => .ok (i ++ more)

/-- `validate_workflow` from `tools/workflow.py`: collects the node-id set,
appends issues per node in insertion order, and returns
`{valid: len(issues) == 0, node_count: len(workflow), issues}`. -/
def validate_workflow (workflow : Graph) : Except PyErr VResult :=
  match collectIssues (workflow.map (fun kv => kv.1)) workflow with
  | .error e => .error e
  | .ok issues => .ok ⟨issues.length == 0, workflow.length, issues⟩

/-- `create_workflow` from `tools/workflow.py`: an empty dict. -/
def create_workflow : Graph := []

/-- `add_node` from `tools/workflow.py`:
`workflow[node_id] = {"class_type": node_type, "inputs": inputs}`. -/
def add_node (workflow : Graph) (node_id node_type : String)
    (inputs : List (String × Json)) : Graph :=
  dictSet workflow node_id (.obj [("class_type", .str node_type), ("inputs", .obj inputs)])

/-- `remove_node` from `tools/workflow.py`:
`if node_id in workflow: del workflow[node_id]` (keys are unique, so
deleting the key removes exactly the entries carrying it). -/
def remove_node (workflow : Graph) (node_id : String) : Graph :=
  if workflow.any (fun kv => kv.1 == node_id) then
    workflow.filter (fun kv => !(kv.1 == node_id))
  else workflow

/-- JSON whitespace accepted by Python `json`. -/
def isJsonWs (c : Char) : Bool :=
  c == Char.ofNat 32 || c == Char.ofNat 9 || c == Char.ofNat 10 || c == Char.ofNat 13

/-- Drop leading JSON whitespace. -/
def skipWs : List Char → List Char
  | [] => []
  | c :: cs => if isJsonWs c then skipWs cs else c :: cs

/-- Value of a hex digit, if any. -/
def hexVal (c : Char) : Option Nat :=
  let n := c.toNat
  if 48 ≤ n ∧ n ≤ 57 then some (n - 48)
  else if 97 ≤ n ∧ n ≤ 102 then some (n - 87)
  else if 65 ≤ n ∧ n ≤ 70 then some (n - 55)
  else none

/-- Body of a JSON string literal, after the opening quote: handles the
escapes `\" \\ \/ \b \f \n \r \t \uXXXX`, rejects raw control characters
(strict mode).  Lone-surrogate pairing of `\u` escapes is approximated by
`Char.ofNat`'s validity fallback; no such text occurs in this repository. -/
def parseStrBody : List Char → List Char → Option (String × List Char)
  | [], _ => none
  | c :: rest, acc =>
      if c == Char.ofNat 34 then some (String.mk acc.reverse, rest)
      else if c == Char.ofNat 92 then
        match rest with
        | [] => none
        | e :: rest2 =>
            if e == Char.ofNat 34 then parseStrBody rest2 (Char.ofNat 34 :: acc)
            else if e == Char.ofNat 92 then parseStrBody rest2 (Char.ofNat 92 :: acc)
            else if e == Char.ofNat 47 then parseStrBody rest2 (Char.ofNat 47 :: acc)
            else if e == Char.ofNat 98 then parseStrBody rest2 (Char.ofNat 8 :: acc)
            else if e == Char.ofNat 102 then parseStrBody rest2 (Char.ofNat 12 :: acc)
            else if e == Char.ofNat 110 then parseStrBody rest2 (Char.ofNat 10 :: acc)
            else if e == Char.ofNat 114 then parseStrBody rest2 (Char.ofNat 13 :: acc)
            else if e == Char.ofNat 116 then parseStrBody rest2 (Char.ofNat 9 :: acc)
            else if e == Char.ofNat 117 then
              match rest2 with
              | h1 :: h2 :: h3 :: h4 :: rest3 =>
                  match hexVal h1, hexVal h2, hexVal h3, hexVal h4 with
                  | some a, some b, some c2, some d =>
                      parseStrBody rest3 (Char.ofNat (((a * 16 + b) * 16 + c2) * 16 + d) :: acc)
                  | _, _, _, _ => none
              | _ => none
            else none
      else if c.toNat < 32 then none
      else parseStrBody rest (c :: acc)

/-- Longest leading run of decimal digits. -/
def takeDigits : List Char → (List Char × List Char)
  | [] => ([], [])
  | c :: rest =>
      if c.isDigit then
        let p := takeDigits rest
        (c :: p.1, p.2)
      else ([], c :: rest)

/-- Decimal value of a digit list (most significant first). -/
def digitsToNat (acc : Nat) : List Char → Nat
  | [] => acc
  | c :: rest => digitsToNat (acc * 10 + (c.toNat - 48)) rest

/-- A JSON number per the `json` module grammar: optional minus, integer part
without leading zeros, optional fraction, optional exponent.  Yields a Python
`int` when neither fraction nor exponent is present, a `float` otherwise. -/
def parseNumber (cs : List Char) : Option (Json × List Char) :=
  let sgn : Bool × List Char :=
    match cs with
    | c :: rest => if c == Char.ofNat 45 then (true, rest) else (false, cs)
    | [] => (false, cs)
  let neg := sgn.1
  match takeDigits sgn.2 with
  | ([], _) => none
  | (ids, cs2) =>
      if 1 < ids.length ∧ ids.headD (Char.ofNat 48) == Char.ofNat 48 then none
      else
        let intPart := digitsToNat 0 ids
        let frac : Option (List Char × List Char) :=
          match cs2 with
          | c :: cs3 =>
              if c == Char.ofNat 46 then
                match takeDigits cs3 with
                | ([], _) => none
                | (fds, cs4) => some (fds, cs4)
              else some ([], cs2)
          | [] => some ([], cs2)
        match frac with
        | none => none
        | some (fds, cs4) =>
            let expn : Option (Option Int × List Char) :=
              match cs4 with
              | c :: cs5 =>
                  if c == Char.ofNat 101 || c == Char.ofNat 69 then
                    let esgn : Bool × List Char :=
                      match cs5 with
                      | d :: cs6 =>
                          if d == Char.ofNat 45 then (true, cs6)
                          else if d == Char.ofNat 43 then (false, cs6)
                          else (false, cs5)
                      | [] => (false, cs5)
                    match takeDigits esgn.2 with
                    | ([], _) => none
                    | (eds, cs7) =>
                        let ev : Int := digitsToNat 0 eds
                        some (some (if esgn.1 then -ev else ev), cs7)
                  else some (none, cs4)
              | [] => some (none, cs4)
            match expn with
            | none => none
            | some (eo, csRest) =>
                if fds.isEmpty ∧ eo.isNone then
                  some (.int (if neg then -(intPart : Int) else intPart), csRest)
                else
                  let fLen := fds.length
                  let mant : Int :=
                    (if neg then -1 else 1) * ((intPart * 10 ^ fLen + digitsToNat 0 fds : Nat) : Int)
                  let e : Int := eo.getD 0
                  let q : Rat :=
                    if 0 ≤ e then mkRat (mant * 10 ^ e.toNat) (10 ^ fLen)
                    else mkRat mant (10 ^ fLen * 10 ^ (-e).toNat)
                  some (.float q, csRest)

mutual

/-- Recursive-descent JSON value parser (model of the `json` module's
decoder, minus the non-standard `NaN`/`Infinity` literals, which never occur
here).  The fuel argument strictly decreases on every call; `json_loads`
supplies enough fuel for any input of the given length. -/
def parseVal : Nat → List Char → Option (Json × List Char)
  | 0, _ => none
  | fuel + 1, cs =>
      match skipWs cs with
      | [] => none
      | c :: rest =>
          if c == Char.ofNat 34 then
            (parseStrBody rest []).map (fun p => (Json.str p.1, p.2))
          else if c == Char.ofNat 91 then
            match skipWs rest with
            | c2 :: rest2 =>
                if c2 == Char.ofNat 93 then some (.arr [], rest2)
                else parseArrElems fuel (c2 :: rest2) []
            | [] => none
          else if c == Char.ofNat 123 then
            match skipWs rest with
            | c2 :: rest2 =>
                if c2 == Char.ofNat 125 then some (.obj [], rest2)
                else parseObjItems fuel (c2 :: rest2) []
            | [] => none
          else if charsLead [Char.ofNat 110, Char.ofNat 117, Char.ofNat 108, Char.ofNat 108] (c :: rest) then
            some (.null, (c :: rest).drop 4)
          else if charsLead [Char.ofNat 116, Char.ofNat 114, Char.ofNat 117, Char.ofNat 101] (c :: rest) then
            some (.bool true, (c :: rest).drop 4)
          else if charsLead [Char.ofNat 102, Char.ofNat 97, Char.ofNat 108, Char.ofNat 115, Char.ofNat 101] (c :: rest) then
            some (.bool false, (c :: rest).drop 5)
          else parseNumber (c :: rest)

/-- Comma-separated array elements up to the closing bracket. -/
def parseArrElems : Nat → List Char → List Json → Option (Json × List Char)
  | 0, _, _ => none
  | fuel + 1, cs, acc =>
      match parseVal fuel cs with
      | none => none
      | some (v, rest) =>
          match skipWs rest with
          | c :: rest2 =>
              if c == Char.ofNat 44 then parseArrElems fuel rest2 (v :: acc)
              else if c == Char.ofNat 93 then some (.arr (v :: acc).reverse, rest2)
              else none
          | [] => none

/-- Comma-separated object members up to the closing brace; duplicate keys
overwrite in place, as in a Python dict built by successive assignment. -/
def parseObjItems : Nat → List Char → List (String × Json) → Option (Json × List Char)
  | 0, _, _ => none
  | fuel + 1, cs, acc =>
      match skipWs cs with
      | c :: rest =>
          if c == Char.ofNat 34 then
            match parseStrBody rest [] with
            | none => none
            | some (k, rest2) =>
                match skipWs rest2 with
                | c2 :: rest3 =>
                    if c2 == Char.ofNat 58 then
                      match parseVal fuel rest3 with
                      | none => none
                      | some (v, rest4) =>
                          match skipWs rest4 with
                          | c3 :: rest5 =>
                              if c3 == Char.ofNat 44 then parseObjItems fuel rest5 (dictSet acc k v)
                              else if c3 == Char.ofNat 125 then some (.obj (dictSet acc k v), rest5)
                              else none
                          | [] => none
                    else none
                | [] => none
          else none
      | [] => none

end

/-- Python `json.loads` on a whole document: parse one value, then require
only whitespace to remain. -/
def json_loads (s : String) : Option Json :=
  match parseVal (2 * s.data.length + 4) s.data with
  | some (v, rest) => if (skipWs rest).isEmpty then some v else none
  | none => none

/-- One escaped character of a JSON string literal as written by
`json.dumps` with its default `ensure_ascii=True`: everything outside
the printable ASCII range `0x20`-`0x7e` is `\uXXXX`-escaped (astral
code points would need surrogate pairs; none occur here). -/
def jsonEscapeChar (c : Char) : List Char :=
  if c == Char.ofNat 34 then [Char.ofNat 92, Char.ofNat 34]
  else if c == Char.ofNat 92 then [Char.ofNat 92, Char.ofNat 92]
  else if c == Char.ofNat 10 then [Char.ofNat 92, Char.ofNat 110]
  else if c == Char.ofNat 13 then [Char.ofNat 92, Char.ofNat 114]
  else if c == Char.ofNat 9 then [Char.ofNat 92, Char.ofNat 116]
  else if c == Char.ofNat 8 then [Char.ofNat 92, Char.ofNat 98]
  else if c == Char.ofNat 12 then [Char.ofNat 92, Char.ofNat 102]
  else if c.toNat < 32 ∨ 126 < c.toNat then
    let n := c.toNat % 65536
    let hx := fun (m : Nat) => Char.ofNat (if m < 10 then 48 + m else 87 + m)
    [Char.ofNat 92, Char.ofNat 117,
     hx (n / 4096 % 16), hx (n / 256 % 16), hx (n / 16 % 16), hx (n % 16)]
  else [c]

/-- A JSON string literal as written by `json.dumps`. -/
def jsonQuote (s : String) : String :=
  String.mk (Char.ofNat 34 :: (s.data.map jsonEscapeChar).flatten ++ [Char.ofNat 34])

mutual

/-- Python `json.dumps` with default separators (`", "`, `": "`). -/
def json_dumps : Json → String
  | .null => "null"
  | .bool true => "true"
  | .bool false => "false"
  | .int n => toString n
  | .float q => floatStr q
  | .str s => jsonQuote s
  | .arr xs => "[" ++ dumpsArr xs ++ "]"
  | .obj kvs => "\x7b" ++ dumpsObj kvs ++ "\x7d"

/-- Comma-separated dumps of array elements. -/
def dumpsArr : List Json → String
  | [] => ""
  | [x] => json_dumps x
  | x :: y :: rest => json_dumps x ++ ", " ++ dumpsArr (y :: rest)

/-- Comma-separated dumps of object members. -/
def dumpsObj : List (String × Json) → String
  | [] => ""
  | [(k, v)] => jsonQuote k ++ ": " ++ json_dumps v
  | (k, v) :: p :: rest => jsonQuote k ++ ": " ++ json_dumps v ++ ", " ++ dumpsObj (p :: rest)

end

/-- `json.loads(value)` with the `JSONDecodeError` fallback of
`update_node_input`: the parsed value when `value` is valid JSON, the raw
string otherwise. -/
def parseOrRaw (value : String) : Json :=
  match json_loads value with
  | some j => j
  | none => .str value

/-- `update_node_input` from `tools/workflow.py`.  The source mutates the
nested dicts in place (`workflow[node_id]["inputs"][input_name] = parsed`);
at value level this replaces the node's `"inputs"` dict entry.  The indexing
chain raises `KeyError` when the node has no `"inputs"` key and `TypeError`
when the node or its `"inputs"` value is not a dict. -/
def update_node_input (workflow : Graph) (node_id input_name value : String) :
    Except PyErr Graph :=
  if ¬ workflow.any (fun kv => kv.1 == node_id) then .ok workflow
  else
    match workflow.lookup node_id with
    | none => throw .keyError
    | some node =>
        match node with
        | .obj nkvs =>
            match nkvs.lookup "inputs" with
            | none => throw .keyError
            | some (.obj ikvs) =>
                .ok (dictSet workflow node_id
                  (.obj (dictSet nkvs "inputs"
                    (.obj (dictSet ikvs input_name (parseOrRaw value))))))
            | some _ => throw .typeError
        | _ => throw .typeError

/-- `ErrorResponse.not_found(resource, suggestion).model_dump()` from
`models.py`: fields in declaration order, absent optional fields as `None`. -/
def notFoundDump (resource suggestion : String) : Json :=
  .obj [("error", .str (resource ++ " not found")),
        ("code", .str "NOT_FOUND"),
        ("details", .null),
        ("suggestion", .str suggestion)]

/-- `ErrorResponse.not_configured(setting).model_dump()` from `models.py`. -/
def notConfiguredDump (setting : String) : Json :=
  .obj [("error", .str (setting ++ " not configured")),
        ("code", .str "NOT_CONFIGURED"),
        ("details", .null),
        ("suggestion", .str ("Set the " ++ setting ++ " environment variable"))]

/-- `list_templates` from `tools/workflow.py`: `list(TEMPLATES.keys())`. -/
def list_templates : List String := TEMPLATES.map (fun p => p.1)

/-- `get_workflow_template` from `tools/workflow.py`: an `ErrorResponse`
dict for unknown names (the suggestion carries `list(TEMPLATES.keys())`
rendered by the f-string), otherwise the deep copy
`json.loads(json.dumps(TEMPLATES[template_name]))`.  The `throw` arms are
unreachable (the key was just checked; `dumps` output always parses). -/
def get_workflow_template (template_name : String) : Except PyErr Json :=
  if ¬ (TEMPLATES.map (fun p => p.1)).contains template_name then
    .ok (notFoundDump ("Template " ++ sQuote ++ template_name ++ sQuote)
      ("Available: " ++ pyStr (.arr ((TEMPLATES.map (fun p => p.1)).map Json.str))))
  else
    match TEMPLATES.lookup template_name with
    | none => throw .keyError
    | some g =>
        match json_loads (json_dumps (.obj g)) with
        | some j => .ok j
        | none => throw .jsonDecodeError

/-- `Path(dir) / name`. -/
def pathJoin (d n : String) : String := d ++ "/" ++ n

/-- `load_workflow` from `tools/workflow.py`, with the settings value and
the file system passed explicitly (contents of existing files by path).
Returns the structured `ErrorResponse` dicts on the configured/missing
paths; `json.load` failure is NOT caught in the source, so an unparsable
file raises `JSONDecodeError` (modelled as the `Except` error). -/
def load_workflow (workflows_dir : Option String) (fs : List (String × String))
    (workflow_name : String) : Except PyErr Json :=
  match workflows_dir with
  | none => .ok (notConfiguredDump "COMFY_WORKFLOWS_DIR")
  | some d =>
      let wf_path := pathJoin d workflow_name
      match fs.lookup wf_path with
      | none =>
          .ok (notFoundDump ("Workflow " ++ sQuote ++ workflow_name ++ sQuote)
            "Use list_workflows() to see available workflows")
      | some contents =>
          match json_loads contents with
          | some j => .ok j
          | none => throw .jsonDecodeError

/-- `save_workflow` from `tools/workflow.py`, with the settings value and
the outcome of the `try` block (directory creation, serialization and
write, any of which can fail) passed explicitly.  Every exception inside
the `try` is absorbed into an `"Error: ..."` string, so the function as a
whole is total. -/
def save_workflow (workflows_dir : Option String) (name : String)
    (writeOutcome : Except String Unit) : String :=
  match workflows_dir with
  | none => "Error: COMFY_WORKFLOWS_DIR not configured"
  | some d =>
      let name2 := if strEndsWith name ".json" then name else name ++ ".json"
      let path := pathJoin d name2
      match writeOutcome with
      | .ok _ => "Saved: " ++ path
      | .error e => "Error: " ++ e

/-- `WorkflowNode` from `models.py` (pydantic model): a required string
`class_type` and an `inputs` dict defaulting to `{}`. -/
structure WorkflowNode where
  class_type : String
  inputs : List (String × Json)
deriving Repr

/-- `Workflow` from `models.py`: a dict from node id to `WorkflowNode`. -/
structure Workflow where
  nodes : List (String × WorkflowNode)
deriving Repr

/-- `WorkflowNode.model_dump()`: fields in declaration order. -/
def WorkflowNode.model_dump (n : WorkflowNode) : Json :=
  .obj [("class_type", .str n.class_type), ("inputs", .obj n.inputs)]

/-- `Workflow.to_api_format`: `{k: v.model_dump() for k, v in nodes.items()}`. -/
def Workflow.to_api_format (w : Workflow) : List (String × Json) :=
  w.nodes.map (fun kv => (kv.1, kv.2.model_dump))

/-- `WorkflowNode(**node_data)`: `**` requires a mapping (`TypeError`
otherwise); pydantic then requires `class_type` to be a string and
`inputs`, when present, to be a dict (`ValidationError` otherwise, no
lax coercion applies to these shapes), defaults `inputs` to `{}`, and
ignores extra keys (the default `extra="ignore"`). -/
def WorkflowNode.ofJson : Json → Except PyErr WorkflowNode
  | .obj kvs =>
      match kvs.lookup "class_type" with
      | some (.str ct) =>
          match kvs.lookup "inputs" with
          | none => .ok ⟨ct, []⟩
          | some (.obj inp) => .ok ⟨ct, inp⟩
          | some _ => throw .validationError
      | some _ => throw .validationError
      | none => throw .validationError
  | _ => throw .typeError

/-- The `for node_id, node_data in data.items()` loop of
`Workflow.from_api_format`: successive assignment
`nodes[node_id] = WorkflowNode(**node_data)` into an initially empty dict. -/
def fromApiNodes (acc : List (String × WorkflowNode)) :
    List (String × Json) → Except PyErr (List (String × WorkflowNode))
  | [] => .ok acc
  | kv :: rest =>
      match WorkflowNode.ofJson kv.2 with
      | .error e => .error e
      | .ok n => fromApiNodes (dictSet acc kv.1 n) rest

/-- `Workflow.from_api_format` from `models.py`. -/
def Workflow.from_api_format (data : List (String × Json)) : Except PyErr Workflow :=
  match fromApiNodes [] data with
  | .error e => .error e
  | .ok nodes => .ok ⟨nodes⟩

/-- A node value for which `validate_workflow` and `update_node_input` can
run without raising: a dict whose `"inputs"` entry, when the key is present,
is itself a dict. -/
def nodeShapeOk : Json → Bool
  | .obj nkvs =>
      match nkvs.lookup "inputs" with
      | some (.obj _) => true
      | some _ => false
      | none => true
  | _ => false

/-- Every node of the graph is shape-ok (see `nodeShapeOk`). -/
def graphShapeOk (g : Graph) : Bool := g.all (fun p => nodeShapeOk p.2)

/-- The connection issues contributed by one input item, as the spec
describes them: an entry exactly when the value is an array of exactly two
elements whose first element, coerced to a string, is not a key of the
graph. -/
def specConnItem (node_ids : List String) (node_id : String)
    (it : String × Json) : List String :=
  match it.2 with
  | .arr [v0, _] =>
      if node_ids.contains (pyStr v0) then [] else [connIssue node_id it.1 (pyStr v0)]
  | _ => []

/-- The connection issues of one node as the spec describes them. -/
def specConnIssues (node_ids : List String) (node_id : String)
    (ikvs : List (String × Json)) : List String :=
  (ikvs.map (specConnItem node_ids node_id)).flatten

/-- The issues of one node as the spec describes them: an entry when the
node lacks `class_type`, an entry when it lacks `inputs`, then the
connection issues of its inputs. -/
def specNodeIssues (node_ids : List String) (node_id : String) (node : Json) : List String :=
  match node with
  | .obj nkvs =>
      (if (nkvs.map (fun p => p.1)).contains "class_type" then []
       else ["Node " ++ node_id ++ ": missing class_type"])
      ++ (if (nkvs.map (fun p => p.1)).contains "inputs" then []
          else ["Node " ++ node_id ++ ": missing inputs"])
      ++ (match nkvs.lookup "inputs" with
          | some (.obj ikvs) => specConnIssues node_ids node_id ikvs
          | _ => [])
  | _ => []

/-- The full issue sequence of a graph as the spec describes it: the issues
of every node, in node insertion order. -/
def specIssues (g : Graph) : List String :=
  (g.map (fun p => specNodeIssues (g.map (fun q => q.1)) p.1 p.2)).flatten

/-- The spec's running example graph: node `"1"` with empty inputs, node
`"2"` with a Connection input `["1", 0]`. -/
def exGraph : Graph :=
  [("1", .obj [("class_type", .str "A"), ("inputs", .obj [])]),
   ("2", .obj [("class_type", .str "B"), ("inputs", .obj [("x", .arr [.str "1", .int 0])])])]

/-- A node value on which the indexing chain of `update_node_input`
(`workflow[node_id]["inputs"][input_name] = parsed`) cannot raise: a dict
carrying an `"inputs"` dict. -/
def nodeHasInputs : Json → Bool
  | .obj nkvs =>
      match nkvs.lookup "inputs" with
      | some (.obj _) => true
      | _ => false
  | _ => false

/-- Wire documents in the canonical node shape that `to_api_format`
produces: the node is exactly `{"class_type": <string>, "inputs": <dict>}`
with the keys in that order. -/
def wireNodeWF : Json → Bool
  | .obj kvs =>
      match kvs with
      | [(k1, .str _), (k2, .obj _)] => k1 == "class_type" && k2 == "inputs"
      | _ => false
  | _ => false

/-- The `WorkflowNode` denoted by a canonical wire node (meaningful under
`wireNodeWF`). -/
def wireNodeExtract : Json → WorkflowNode
  | .obj [(_, .str ct), (_, .obj i)] => ⟨ct, i⟩
  | _ => ⟨"", []⟩

/-- A Python object address, for the heap model used by the template
deep-copy claim: `get_workflow_template` must return a fresh object graph,
never a reference into the catalog. -/
abbrev Addr := Nat

/-- One Python object cell: immutable scalar values inline; lists and dicts
hold references to their element/value objects. -/
inductive Cell where
  | scalar (v : Json)
  | arrC (elems : List Addr)
  | objC (fields : List (String × Addr))
deriving Repr

/-- A Python heap: object cells by address (addresses unique). -/
abbrev Heap := List (Addr × Cell)

mutual

/-- Allocate the object graph of a JSON value into fresh cells starting at
counter `n` (what building a fresh value — e.g. the result of
`json.loads` — does): returns the root address, the new cells (with
addresses in `[n, n2)`), and the next counter `n2`. -/
def allocJ : Json → Nat → (Addr × List (Addr × Cell) × Nat)
  | .arr xs, n =>
      let r := allocL xs n
      (r.2.2, r.2.1 ++ [(r.2.2, .arrC r.1)], r.2.2 + 1)
  | .obj kvs, n =>
      let r := allocO kvs n
      (r.2.2, r.2.1 ++ [(r.2.2, .objC r.1)], r.2.2 + 1)
  | v, n => (n, [(n, .scalar v)], n + 1)

/-- Allocate a list of values left to right. -/
def allocL : List Json → Nat → (List Addr × List (Addr × Cell) × Nat)
  | [], n => ([], [], n)
  | x :: xs, n =>
      let r1 := allocJ x n
      let r2 := allocL xs r1.2.2
      (r1.1 :: r2.1, r1.2.1 ++ r2.2.1, r2.2.2)

/-- Allocate dict values left to right. -/
def allocO : List (String × Json) → Nat → (List (String × Addr) × List (Addr × Cell) × Nat)
  | [], n => ([], [], n)
  | (k, v) :: rest, n =>
      let r1 := allocJ v n
      let r2 := allocO rest r1.2.2
      ((k, r1.1) :: r2.1, r1.2.1 ++ r2.2.1, r2.2.2)

end

mutual

/-- Read back the JSON value of the object graph rooted at `a` (what
`json.dumps` observes).  The fuel strictly decreases on every dereference;
callers pass `heap size + 1`, which suffices for any acyclic heap. -/
def decodeJ (h : Heap) : Nat → Addr → Option Json
  | 0, _ => none
  | fuel + 1, a =>
      match h.lookup a with
      | some (.scalar v) => some v
      | some (.arrC as) => (decodeL h fuel as).map Json.arr
      | some (.objC fs) => (decodeO h fuel fs).map Json.obj
      | none => none

/-- Read back a list of element addresses. -/
def decodeL (h : Heap) : Nat → List Addr → Option (List Json)
  | _, [] => some []
  | 0, _ :: _ => none
  | fuel + 1, a :: as =>
      match decodeJ h fuel a, decodeL h fuel as with
      | some v, some vs => some (v :: vs)
      | _, _ => none

/-- Read back dict fields. -/
def decodeO (h : Heap) : Nat → List (String × Addr) → Option (List (String × Json))
  | _, [] => some []
  | 0, _ :: _ => none
  | fuel + 1, (k, a) :: fs =>
      match decodeJ h fuel a, decodeO h fuel fs with
      | some v, some vs => some ((k, v) :: vs)
      | _, _ => none

end

/-- In-place mutation of the object at address `a` (element assignment,
key insertion/deletion, wholesale update — any rebinding of the cell). -/
def heapSet (h : Heap) (a : Addr) (c : Cell) : Heap :=
  h.map (fun p => if p.1 == a then (a, c) else p)

/-- The addresses a cell references directly. -/
def cellRefs : Cell → List Addr
  | .scalar _ => []
  | .arrC as => as
  | .objC fs => fs.map (fun p => p.2)

/-- Every cell of `h` whose address lies in `[lo, hi)` references only
addresses in `[lo, hi)`: the region is closed, so decoding from a root in
the region never touches an address outside it. -/
def regionClosedB (h : Heap) (lo hi : Nat) : Bool :=
  h.all (fun p =>
    if lo ≤ p.1 ∧ p.1 < hi then (cellRefs p.2).all (fun r => decide (lo ≤ r ∧ r < hi))
    else true)

/-- The heap semantics of `get_workflow_template`'s copy for a known
template: `json.loads(json.dumps(x))` reads the current object graph of the
catalog entry `x` and builds an entirely fresh object graph of the same
content — it returns a new root, never `x`'s own address. -/
def get_template_heap (h : Heap) (n : Nat) (root : Addr) : Option (Addr × Heap × Nat) :=
  match decodeJ h (h.length + 1) root with
  | none => none
  | some j =>
      let r := allocJ j n
      some (r.1, h ++ r.2.1, r.2.2)

/-- The module initialization of `tools/workflow.py`: the `TEMPLATES` dict
literal allocates the catalog's object graphs once, at startup. -/
def catalogInit : List (String × Addr) × Heap × Nat :=
  TEMPLATES.foldl
    (fun acc p =>
      let r := allocJ (.obj p.2) acc.2.2
      (acc.1 ++ [(p.1, r.1)], acc.2.1 ++ r.2.1, r.2.2))
    ([], [], 0)

/-- Catalog entry roots by template name. -/
def catalogRoots : List (String × Addr) := catalogInit.1

/-- The startup heap holding the catalog's object graphs. -/
def catalogHeap : Heap := catalogInit.2.1

/-- The first address outside the catalog region. -/
def catalogNext : Nat := catalogInit.2.2

/-! ### Lemmas and verification theorems -/

mutual

theorem Json.beq_refl : ∀ a : Json, Json.beq a a = true
  | .null => rfl
  | .bool b => by simp [Json.beq]
  | .int n => by simp [Json.beq]
  | .float q => by simp [Json.beq]
  | .str s => by simp [Json.beq]
  | .arr xs => by simpa [Json.beq] using Json.beqList_refl xs
  | .obj kvs => by simpa [Json.beq] using Json.beqObj_refl kvs

theorem Json.beqList_refl : ∀ xs : List Json, Json.beqList xs xs = true
  | [] => rfl
  | x :: xs => by
      simp only [Json.beqList, Bool.and_eq_true]
      exact ⟨Json.beq_refl x, Json.beqList_refl xs⟩

theorem Json.beqObj_refl : ∀ kvs : List (String × Json), Json.beqObj kvs kvs = true
  | [] => rfl
  | (k, v) :: rest => by
      simp only [Json.beqObj, Bool.and_eq_true]
      exact ⟨⟨by simp, Json.beq_refl v⟩, Json.beqObj_refl rest⟩

end

theorem Json.ne_of_beq_false {a b : Json} (h : Json.beq a b = false) : a ≠ b := by
  intro he
  rw [he, Json.beq_refl] at h
  exact Bool.noConfusion h

theorem keyContains_eq_any {α : Type} (l : List (String × α)) (k : String) :
    (l.map (fun p => p.1)).contains k = l.any (fun p => p.1 == k) := by
  induction l with
  | nil => rfl
  | cons p rest ih =>
      simp only [List.map_cons, List.contains_cons, List.any_cons, ih]
      congr 1
      exact Bool.beq_comm ..

theorem lookup_none_iff_any_false {α : Type} (l : List (String × α)) (k : String) :
    l.lookup k = none ↔ l.any (fun p => p.1 == k) = false := by
  induction l with
  | nil => simp [List.lookup]
  | cons p rest ih =>
      rcases p with ⟨k2, v⟩
      by_cases h : k2 = k
      · subst h
        simp [List.lookup]
      · have hbe : (k == k2) = false := by simp [h, Ne.symm h]
        have hbe2 : (k2 == k) = false := by simp [h]
        simp [List.lookup, hbe, hbe2, ih]

theorem lookup_some_of_any {α : Type} {l : List (String × α)} {k : String}
    (h : l.any (fun p => p.1 == k) = true) : ∃ v, l.lookup k = some v := by
  cases hl : l.lookup k with
  | some v => exact ⟨v, rfl⟩
  | none =>
      rw [(lookup_none_iff_any_false l k).mp hl] at h
      exact Bool.noConfusion h

theorem foldl_append_flatten {α β : Type} (f : α → List β) (l : List α) :
    ∀ acc, l.foldl (fun acc it => acc ++ f it) acc = acc ++ (l.map f).flatten := by
  induction l with
  | nil => intro acc; simp
  | cons a rest ih => intro acc; simp [ih (acc ++ f a)]

theorem connStep_eq (node_ids : List String) (node_id : String) :
    (fun (acc : List String) (it : String × Json) =>
      match it.2 with
      | .arr [v0, _] =>
          let ref := pyStr v0
          if node_ids.contains ref then acc else acc ++ [connIssue node_id it.1 ref]
      | _ => acc)
    = fun acc it => acc ++ specConnItem node_ids node_id it := by
  funext acc it
  rcases it with ⟨nm, v⟩
  rcases v with _ | _ | _ | _ | _ | xs | kvs
  case arr =>
    rcases xs with _ | ⟨v0, _ | ⟨v1, _ | _⟩⟩
    · simp [specConnItem]
    · simp [specConnItem]
    · dsimp only [specConnItem]
      split
      · simp
      · rfl
    · simp [specConnItem]
  all_goals simp [specConnItem]

theorem connFold_eq_spec (node_ids : List String) (node_id : String)
    (items : List (String × Json)) :
    connFold node_ids node_id items = specConnIssues node_ids node_id items := by
  rw [connFold, connStep_eq, foldl_append_flatten]
  rfl

theorem validateNode_ok (node_ids : List String) (node_id : String) (node : Json)
    (h : nodeShapeOk node = true) :
    validateNode node_ids node_id node = .ok (specNodeIssues node_ids node_id node) := by
  rcases node with _ | _ | _ | _ | _ | xs | nkvs
  · exact Bool.noConfusion h
  · exact Bool.noConfusion h
  · exact Bool.noConfusion h
  · exact Bool.noConfusion h
  · exact Bool.noConfusion h
  · exact Bool.noConfusion h
  cases hB : nkvs.any (fun p => p.1 == "inputs") with
  | true =>
      obtain ⟨v, hv⟩ := lookup_some_of_any hB
      rcases v with _ | _ | _ | _ | _ | vxs | ikvs <;>
        (try simp only [nodeShapeOk, hv] at h) <;> try exact Bool.noConfusion h
      simp only [validateNode, pyContains, pyGetItem, pyItems, hv, hB,
                 specNodeIssues, keyContains_eq_any, connFold_eq_spec,
                 specConnIssues, if_true]
  | false =>
      have hnone : nkvs.lookup "inputs" = none :=
        (lookup_none_iff_any_false nkvs "inputs").mpr hB
      simp only [validateNode, pyContains, specNodeIssues, keyContains_eq_any, hnone, hB]
      simp

theorem collectIssues_ok (node_ids : List String) (g : Graph)
    (h : ∀ p ∈ g, nodeShapeOk p.2 = true) :
    collectIssues node_ids g
      = .ok ((g.map (fun p => specNodeIssues node_ids p.1 p.2)).flatten) := by
  induction g with
  | nil => rfl
  | cons kv rest ih =>
      have h1 : nodeShapeOk kv.2 = true := h kv (by simp)
      have h2 : ∀ p ∈ rest, nodeShapeOk p.2 = true := fun p hp => h p (by simp [hp])
      simp [collectIssues, validateNode_ok node_ids kv.1 kv.2 h1, ih h2]

theorem graphShapeOk_nodes {g : Graph} (h : graphShapeOk g = true) :
    ∀ p ∈ g, nodeShapeOk p.2 = true := by
  intro p hp
  have := List.all_eq_true.mp h
  exact this p hp

theorem length_beq_zero {α : Type} (l : List α) : (l.length == 0) = l.isEmpty := by
  cases l <;> rfl

/-- Claim C1, amended: for every workflow graph whose nodes are mappings
and whose `inputs` values, when the key is present, are mappings,
`validate` returns the record whose `node_count` is the number of nodes,
whose `issues` contains exactly the spec-described entries (one per node
lacking `class_type`, one per node lacking `inputs`, one "references
non-existent node" entry per two-element-array input whose first element,
coerced to string, is not a graph key), and whose `valid` is true iff the
issues are empty.  (The unamended claim, over arbitrary node values, fails:
see the counterexample.) -/
theorem C1_validate_spec (g : Graph) (h : graphShapeOk g = true) :
    validate_workflow g = .ok ⟨(specIssues g).isEmpty, g.length, specIssues g⟩ ∧
    (∀ r, validate_workflow g = .ok r → (r.valid = true ↔ r.issues = [])) := by
  have hc := collectIssues_ok (g.map fun q => q.1) g (graphShapeOk_nodes h)
  have hmain : validate_workflow g
      = .ok ⟨(specIssues g).isEmpty, g.length, specIssues g⟩ := by
    simp only [validate_workflow, hc, specIssues, length_beq_zero]
  refine ⟨hmain, ?_⟩
  intro r hr
  rw [hmain] at hr
  cases hr
  simp [List.isEmpty_iff]

/-- Claim C1 as frozen fails on the code: `validate` does not return a
record for every graph — on a node whose `inputs` value is not a mapping
the source raises `AttributeError` at `node["inputs"].items()` instead of
reporting an issue. -/
theorem C1_cex :
    validate_workflow [("1", .obj [("class_type", .str "A"), ("inputs", .int 5)])]
      = .error .attributeError := rfl

/-- Witness for `C1_validate_spec` at the spec's two-node example graph. -/
theorem C1_witness :
    graphShapeOk exGraph = true ∧ specIssues exGraph = [] ∧
    validate_workflow exGraph
      = .ok ⟨(specIssues exGraph).isEmpty, exGraph.length, specIssues exGraph⟩ :=
  ⟨rfl, rfl, (C1_validate_spec exGraph rfl).1⟩

theorem mem_of_lookup {κ α : Type} [BEq κ] [LawfulBEq κ]
    {l : List (κ × α)} {k : κ} {v : α}
    (h : l.lookup k = some v) : (k, v) ∈ l := by
  induction l with
  | nil => simp [List.lookup] at h
  | cons p rest ih =>
      rcases p with ⟨k2, v2⟩
      by_cases he : k = k2
      · subst he
        simp [List.lookup] at h
        simp [h]
      · have hb : (k == k2) = false := by simp [he]
        rw [List.lookup, hb] at h
        exact List.mem_cons_of_mem _ (ih h)

theorem any_of_lookup {α : Type} {l : List (String × α)} {k : String} {v : α}
    (h : l.lookup k = some v) : l.any (fun p => p.1 == k) = true := by
  have hm := mem_of_lookup h
  exact List.any_eq_true.mpr ⟨(k, v), hm, by simp⟩

theorem nodeHasInputs_shape {node : Json} (h : nodeHasInputs node = true) :
    ∃ nkvs ikvs, node = Json.obj nkvs ∧ nkvs.lookup "inputs" = some (.obj ikvs) := by
  rcases node with _ | _ | _ | _ | _ | xs | nkvs
  · exact Bool.noConfusion h
  · exact Bool.noConfusion h
  · exact Bool.noConfusion h
  · exact Bool.noConfusion h
  · exact Bool.noConfusion h
  · exact Bool.noConfusion h
  refine ⟨nkvs, ?_⟩
  rw [nodeHasInputs] at h
  cases hl : nkvs.lookup "inputs" with
  | none => rw [hl] at h; exact Bool.noConfusion h
  | some v =>
      rw [hl] at h
      rcases v with _ | _ | _ | _ | _ | vxs | ikvs
      · exact Bool.noConfusion h
      · exact Bool.noConfusion h
      · exact Bool.noConfusion h
      · exact Bool.noConfusion h
      · exact Bool.noConfusion h
      · exact Bool.noConfusion h
      exact ⟨ikvs, rfl, rfl⟩

theorem nodeHasInputs_shapeOk {node : Json} (h : nodeHasInputs node = true) :
    nodeShapeOk node = true := by
  obtain ⟨nkvs, ikvs, h1, h2⟩ := nodeHasInputs_shape h
  subst h1
  simp [nodeShapeOk, h2]

/-- Claim C3, amended: `validate` and `update_node_input` never raise on a
graph every node of which is a mapping carrying an `inputs` mapping — they
return normally and report malformedness only as issue data.  On other
malformed-but-representable graphs they CAN raise (see the counterexample),
so the unrestricted propagation-policy claim fails. -/
theorem C3_no_raise (g : Graph) (node_id input_name value : String)
    (h : g.all (fun p => nodeHasInputs p.2) = true) :
    (∃ r, validate_workflow g = .ok r) ∧
    (∃ g2, update_node_input g node_id input_name value = .ok g2) := by
  have hall : ∀ p ∈ g, nodeHasInputs p.2 = true := fun p hp => List.all_eq_true.mp h p hp
  constructor
  · have hshape : ∀ p ∈ g, nodeShapeOk p.2 = true :=
      fun p hp => nodeHasInputs_shapeOk (hall p hp)
    have hc := collectIssues_ok (g.map fun q => q.1) g hshape
    exact ⟨_, by rw [validate_workflow, hc]⟩
  · cases hA : g.any (fun kv => kv.1 == node_id) with
    | false =>
        refine ⟨g, ?_⟩
        simp [update_node_input, hA]
    | true =>
        obtain ⟨node, hnode⟩ := lookup_some_of_any hA
        obtain ⟨nkvs, ikvs, hobj, hinp⟩ :=
          nodeHasInputs_shape (hall (node_id, node) (mem_of_lookup hnode))
        subst hobj
        refine ⟨dictSet g node_id (.obj (dictSet nkvs "inputs"
          (.obj (dictSet ikvs input_name (parseOrRaw value))))), ?_⟩
        simp [update_node_input, hA, hnode, hinp]

/-- Claim C3 as frozen fails on the code: on malformed-but-representable
graphs the Validation Engine and `update_node_input` raise instead of
reporting data — `validate` hits a `TypeError` at `"class_type" not in 0`
when a node is the number `0`, and `update_node_input` hits a `KeyError` at
`workflow["1"]["inputs"]` when the node dict lacks the `inputs` key. -/
theorem C3_cex :
    validate_workflow [("1", Json.int 0)] = .error .typeError ∧
    update_node_input [("1", Json.obj [])] "1" "x" "v" = .error .keyError :=
  ⟨rfl, rfl⟩

/-- Witness for `C3_no_raise` at the two-node example graph. -/
theorem C3_witness :
    exGraph.all (fun p => nodeHasInputs p.2) = true ∧
    (∃ r, validate_workflow exGraph = .ok r) ∧
    (∃ g2, update_node_input exGraph "2" "y" "7" = .ok g2) :=
  ⟨rfl, (C3_no_raise exGraph "2" "y" "7" rfl).1, (C3_no_raise exGraph "2" "y" "7" rfl).2⟩

theorem lookup_filter_self (g : Graph) (node_id : String) :
    (g.filter (fun kv => !(kv.1 == node_id))).lookup node_id = none := by
  induction g with
  | nil => rfl
  | cons p rest ih =>
      rcases p with ⟨k, v⟩
      by_cases h : k = node_id
      · subst h
        simpa [List.filter] using ih
      · have hb : (k == node_id) = false := by simp [h]
        have hb2 : (node_id == k) = false := by simp [Ne.symm h]
        simpa [List.filter, hb, List.lookup, hb2] using ih

theorem lookup_filter_ne (g : Graph) (node_id k : String) (hk : k ≠ node_id) :
    (g.filter (fun kv => !(kv.1 == node_id))).lookup k = g.lookup k := by
  induction g with
  | nil => rfl
  | cons p rest ih =>
      rcases p with ⟨k2, v⟩
      by_cases h : k2 = node_id
      · subst h
        have hb : (k == k2) = false := by simp [hk]
        simpa [List.filter, List.lookup, hb] using ih
      · have hb : (k2 == node_id) = false := by simp [h]
        simp only [List.filter, hb, Bool.not_false, List.lookup]
        cases hkk : k == k2 with
        | true => rfl
        | false => exact ih

/-- Claim C5: `remove_node` removes exactly the mapping at `nodeId` when
present and is a no-op when absent; every other node — including dangling
Connection inputs that referenced the removed node — is left unchanged, so
removing node `"1"` from the two-node example graph and validating yields
`valid: false` with exactly the one issue citing node `"2"`, input `"x"`
and missing target `"1"`. -/
theorem C5_remove_node :
    (∀ (g : Graph) (node_id : String),
      (remove_node g node_id).lookup node_id = none ∧
      (∀ k, k ≠ node_id → (remove_node g node_id).lookup k = g.lookup k) ∧
      (g.lookup node_id = none → remove_node g node_id = g)) ∧
    remove_node exGraph "1"
      = [("2", .obj [("class_type", .str "B"),
                     ("inputs", .obj [("x", .arr [.str "1", .int 0])])])] ∧
    validate_workflow (remove_node exGraph "1")
      = .ok ⟨false, 1, [connIssue "2" "x" "1"]⟩ := by
  refine ⟨fun g node_id => ?_, rfl, rfl⟩
  cases hA : g.any (fun kv => kv.1 == node_id) with
  | true =>
      refine ⟨?_, ?_, ?_⟩
      · simpa [remove_node, hA] using lookup_filter_self g node_id
      · intro k hk
        simpa [remove_node, hA] using lookup_filter_ne g node_id k hk
      · intro hnone
        rw [(lookup_none_iff_any_false g node_id).mp hnone] at hA
        exact Bool.noConfusion hA
  | false =>
      have hnone : g.lookup node_id = none := (lookup_none_iff_any_false g node_id).mpr hA
      refine ⟨?_, ?_, fun _ => by simp [remove_node, hA]⟩
      · simpa [remove_node, hA] using hnone
      · intro k hk
        simp [remove_node, hA]

/-- Witness for `C5_remove_node` at the example graph: the removed key is
gone, the untouched key `"2"` is preserved. -/
theorem C5_witness :
    (remove_node exGraph "1").lookup "1" = none ∧
    (remove_node exGraph "1").lookup "2" = exGraph.lookup "2" :=
  ⟨(C5_remove_node.1 exGraph "1").1, (C5_remove_node.1 exGraph "1").2.1 "2" (by decide)⟩

/-- Claim C6, amended: `update_node_input` is a no-op when `nodeId` is
absent; when the node at `nodeId` is a mapping with an `inputs` mapping it
sets `inputs[inputName]` to the JSON parse of the text, falling back to the
raw string when parsing fails — so the text `"[\"1\", 0]"` yields the
Connection value `["1", 0]` and `"hello"` yields the string `"hello"`.
(When the node at `nodeId` is present but malformed the source raises
instead; see the counterexample.) -/
theorem C6_update_node_input :
    (∀ (g : Graph) (node_id input_name value : String),
      (g.lookup node_id = none → update_node_input g node_id input_name value = .ok g) ∧
      (∀ nkvs ikvs, g.lookup node_id = some (.obj nkvs) →
        nkvs.lookup "inputs" = some (.obj ikvs) →
        update_node_input g node_id input_name value
          = .ok (dictSet g node_id (.obj (dictSet nkvs "inputs"
              (.obj (dictSet ikvs input_name (parseOrRaw value)))))))) ∧
    update_node_input exGraph "2" "y" "[\"1\", 0]"
      = .ok [("1", .obj [("class_type", .str "A"), ("inputs", .obj [])]),
             ("2", .obj [("class_type", .str "B"),
                         ("inputs", .obj [("x", .arr [.str "1", .int 0]),
                                          ("y", .arr [.str "1", .int 0])])])] ∧
    update_node_input exGraph "2" "y" "hello"
      = .ok [("1", .obj [("class_type", .str "A"), ("inputs", .obj [])]),
             ("2", .obj [("class_type", .str "B"),
                         ("inputs", .obj [("x", .arr [.str "1", .int 0]),
                                          ("y", .str "hello")])])] := by
  refine ⟨fun g node_id input_name value => ⟨?_, ?_⟩, rfl, rfl⟩
  · intro hnone
    have hA : g.any (fun kv => kv.1 == node_id) = false :=
      (lookup_none_iff_any_false g node_id).mp hnone
    simp [update_node_input, hA]
  · intro nkvs ikvs hnode hinp
    have hA : g.any (fun kv => kv.1 == node_id) = true := any_of_lookup hnode
    simp [update_node_input, hA, hnode, hinp]

/-- Claim C6 as frozen fails on the code: when the node at `nodeId` is
present but not a dict (here: a string), the indexing chain raises
`TypeError` — the function neither no-ops nor sets an input. -/
theorem C6_cex :
    update_node_input [("n", Json.str "s")] "n" "x" "v" = .error .typeError := rfl

/-- Witness for `C6_update_node_input`: both the no-op branch (key `"3"`
absent) and the set branch (node `"2"`) at the example graph. -/
theorem C6_witness :
    update_node_input exGraph "3" "y" "0" = .ok exGraph ∧
    update_node_input exGraph "2" "y" "0"
      = .ok (dictSet exGraph "2" (.obj (dictSet
          [("class_type", Json.str "B"), ("inputs", .obj [("x", .arr [.str "1", .int 0])])]
          "inputs" (.obj (dictSet [("x", Json.arr [.str "1", .int 0])] "y" (parseOrRaw "0")))))) :=
  ⟨(C6_update_node_input.1 exGraph "3" "y" "0").1 rfl,
   (C6_update_node_input.1 exGraph "2" "y" "0").2 _ _ rfl rfl⟩

/-- Claim C9: every graph bundled in the template catalog — the entries
`empty`, `fal-flux-dev` and `fal-flux-schnell` — passes validation: `valid`
is true, the issue list is empty, and `node_count` is 0, 7 and 3
respectively. -/
theorem C9_templates_validate :
    TEMPLATES.map (fun p => p.1) = ["empty", "fal-flux-dev", "fal-flux-schnell"] ∧
    TEMPLATES.map (fun p => validate_workflow p.2)
      = [.ok ⟨true, 0, []⟩, .ok ⟨true, 7, []⟩, .ok ⟨true, 3, []⟩] :=
  ⟨rfl, rfl⟩

/-- Claim C10: `save_workflow` never propagates an exception — with the
directory unconfigured it returns the exact `NotConfigured` string, any
failure of the `try` block (mkdir, serialization, write) is absorbed into a
string beginning with `"Error: "`, and on success it returns `"Saved: "`
followed by the written path (the name normalized to end in `.json`). -/
theorem C10_save_workflow :
    (∀ name outcome, save_workflow none name outcome
      = "Error: COMFY_WORKFLOWS_DIR not configured") ∧
    (∀ d name e, save_workflow (some d) name (.error e) = "Error: " ++ e) ∧
    (∀ d name, save_workflow (some d) name (.ok ())
      = "Saved: " ++ d ++ "/" ++ (if strEndsWith name ".json" then name else name ++ ".json")) := by
  refine ⟨fun name outcome => rfl, fun d name e => rfl, fun d name => ?_⟩
  rw [save_workflow, pathJoin]
  cases strEndsWith name ".json" <;> simp [String.append_assoc]

/-- Claim C8: for every name not in the template catalog,
`get_workflow_template` returns the `NOT_FOUND` error response whose
remediation hint carries the list of valid template names (rendered by the
f-string as a Python list literal); for every catalog key it succeeds with
the template's graph. -/
theorem C8_get_template :
    (∀ name, (TEMPLATES.map (fun p => p.1)).contains name = false →
      get_workflow_template name
        = .ok (notFoundDump ("Template " ++ sQuote ++ name ++ sQuote)
            ("Available: " ++ pyStr (.arr ((TEMPLATES.map (fun p => p.1)).map Json.str))))) ∧
    "Available: " ++ pyStr (.arr ((TEMPLATES.map (fun p => p.1)).map Json.str))
      = "Available: [" ++ sQuote ++ "empty" ++ sQuote ++ ", "
          ++ sQuote ++ "fal-flux-dev" ++ sQuote ++ ", "
          ++ sQuote ++ "fal-flux-schnell" ++ sQuote ++ "]" ∧
    TEMPLATES.map (fun p => get_workflow_template p.1)
      = TEMPLATES.map (fun p => .ok (.obj p.2)) := by
  refine ⟨fun name h => ?_, rfl, rfl⟩
  have hn : ¬ ((TEMPLATES.map (fun p => p.1)).contains name = true) := by
    rw [h]
    exact fun hc => Bool.noConfusion hc
  rw [get_workflow_template, if_pos hn]

/-- Witness for `C8_get_template` at the absent name `"simple"`. -/
theorem C8_witness :
    (TEMPLATES.map (fun p => p.1)).contains "simple" = false ∧
    get_workflow_template "simple"
      = .ok (notFoundDump ("Template " ++ sQuote ++ "simple" ++ sQuote)
          ("Available: " ++ pyStr (.arr ((TEMPLATES.map (fun p => p.1)).map Json.str)))) :=
  ⟨rfl, C8_get_template.1 "simple" rfl⟩

/-- Claim C7, amended: `load` returns the `NotConfigured` response when the
directory is unset, the `NotFound` response when the file is absent, and
the deserialized graph when the file parses; but a read/parse failure is
NOT converted to a generic I/O error — the source has no handler around
`json.load`, so the `JSONDecodeError` propagates uncaught (see the
counterexample). -/
theorem C7_load_workflow :
    (∀ fs name, load_workflow none fs name
      = .ok (notConfiguredDump "COMFY_WORKFLOWS_DIR")) ∧
    (∀ d fs name, (fs : List (String × String)).lookup (pathJoin d name) = none →
      load_workflow (some d) fs name
        = .ok (notFoundDump ("Workflow " ++ sQuote ++ name ++ sQuote)
            "Use list_workflows() to see available workflows")) ∧
    (∀ d fs name contents j, fs.lookup (pathJoin d name) = some contents →
      json_loads contents = some j →
      load_workflow (some d) fs name = .ok j) ∧
    (∀ d fs name contents, fs.lookup (pathJoin d name) = some contents →
      json_loads contents = none →
      load_workflow (some d) fs name = .error .jsonDecodeError) := by
  refine ⟨fun fs name => rfl, fun d fs name h => ?_, ?_, ?_⟩
  · simp [load_workflow, h]
  · intro d fs name contents j h hj
    simp [load_workflow, h, hj]
  · intro d fs name contents h hj
    simp only [load_workflow, h, hj]
    rfl

/-- Claim C7 as frozen fails on the code: a file that exists but does not
parse as JSON makes `load_workflow` raise `JSONDecodeError` (there is no
`try` around `json.load`), instead of failing with a returned generic I/O
error. -/
theorem C7_cex :
    load_workflow (some "wf") [("wf/bad.json", "not json")] "bad.json"
      = .error .jsonDecodeError := rfl

/-- Witness for `C7_load_workflow`: the missing-file and successful-load
branches on a one-file file system. -/
theorem C7_witness :
    load_workflow (some "wf") [("wf/a.json", "[1]")] "b.json"
      = .ok (notFoundDump ("Workflow " ++ sQuote ++ "b.json" ++ sQuote)
          "Use list_workflows() to see available workflows") ∧
    load_workflow (some "wf") [("wf/a.json", "[1]")] "a.json" = .ok (.arr [.int 1]) :=
  ⟨C7_load_workflow.2.1 "wf" [("wf/a.json", "[1]")] "b.json" rfl,
   C7_load_workflow.2.2.1 "wf" [("wf/a.json", "[1]")] "a.json" "[1]" (.arr [.int 1]) rfl rfl⟩

theorem dictSet_append {α : Type} (l : List (String × α)) (k : String) (v : α)
    (h : l.any (fun p => p.1 == k) = false) : dictSet l k v = l ++ [(k, v)] := by
  induction l with
  | nil => rfl
  | cons p rest ih =>
      rcases p with ⟨k2, v2⟩
      simp only [List.any_cons, Bool.or_eq_false_iff] at h
      simp [dictSet, h.1, ih h.2]

theorem ofJson_dump (n : WorkflowNode) : WorkflowNode.ofJson n.model_dump = .ok n := rfl

theorem fromApiNodes_dump (nodes : List (String × WorkflowNode)) :
    ∀ acc : List (String × WorkflowNode),
      (nodes.map (fun p => p.1)).Nodup →
      (∀ p ∈ nodes, acc.any (fun q => q.1 == p.1) = false) →
      fromApiNodes acc (nodes.map (fun kv => (kv.1, kv.2.model_dump))) = .ok (acc ++ nodes) := by
  induction nodes with
  | nil => intro acc _ _; simp [fromApiNodes]
  | cons kv rest ih =>
      intro acc hnodup hdisj
      simp only [List.map_cons, fromApiNodes, ofJson_dump]
      rw [dictSet_append acc kv.1 kv.2 (hdisj kv (List.mem_cons_self _ _))]
      simp only [List.map_cons, List.nodup_cons] at hnodup
      rw [ih (acc ++ [(kv.1, kv.2)]) hnodup.2 ?_]
      · simp
      · intro p hp
        have h1 := hdisj p (List.mem_cons_of_mem _ hp)
        have hk : (kv.1 == p.1) = false := by
          have : p.1 ∈ rest.map (fun p => p.1) := List.mem_map_of_mem _ hp
          have hne : kv.1 ≠ p.1 := fun he => hnodup.1 (he ▸ this)
          simp [hne]
        simp [List.any_append, h1, hk]

theorem wireNodeWF_shape {node : Json} (h : wireNodeWF node = true) :
    ∃ ct i, node = Json.obj [("class_type", Json.str ct), ("inputs", Json.obj i)] := by
  rcases node with _ | _ | _ | _ | _ | xs | kvs
  · exact Bool.noConfusion h
  · exact Bool.noConfusion h
  · exact Bool.noConfusion h
  · exact Bool.noConfusion h
  · exact Bool.noConfusion h
  · exact Bool.noConfusion h
  rcases kvs with _ | ⟨⟨k1, v1⟩, kvs2⟩
  · exact Bool.noConfusion h
  rcases kvs2 with _ | ⟨⟨k2, v2⟩, kvs3⟩
  · rcases v1 with _ | _ | _ | _ | _ | _ | _ <;> exact Bool.noConfusion h
  rcases kvs3 with _ | ⟨p3, kvs4⟩
  case obj.cons.mk.cons.mk.nil =>
      rcases v1 with _ | _ | _ | _ | ct | _ | _ <;> try exact Bool.noConfusion h
      rcases v2 with _ | _ | _ | _ | _ | _ | i <;> try exact Bool.noConfusion h
      rw [wireNodeWF] at h
      simp only [Bool.and_eq_true, beq_iff_eq] at h
      exact ⟨ct, i, by rw [h.1, h.2]⟩
  case obj.cons.mk.cons.mk.cons =>
      rcases v1 with _ | _ | _ | _ | ct | _ | _ <;>
        rcases v2 with _ | _ | _ | _ | _ | _ | _ <;>
          exact Bool.noConfusion h

theorem dump_extract {node : Json} (h : wireNodeWF node = true) :
    (wireNodeExtract node).model_dump = node := by
  obtain ⟨ct, i, rfl⟩ := wireNodeWF_shape h
  rfl

theorem toApi_extract (d : List (String × Json)) (hwf : ∀ p ∈ d, wireNodeWF p.2 = true) :
    Workflow.to_api_format ⟨d.map (fun p => (p.1, wireNodeExtract p.2))⟩ = d := by
  induction d with
  | nil => rfl
  | cons p rest ih =>
      have h1 := dump_extract (hwf p (List.mem_cons_self _ _))
      have hrest := ih (fun q hq => hwf q (List.mem_cons_of_mem _ hq))
      simp only [Workflow.to_api_format, List.map_cons] at hrest ⊢
      rw [h1, hrest]

/-- Claim C2, amended: `fromWireFormat (toWireFormat G)` is deeply equal to
`G` for every `Workflow` (with its dict-guaranteed unique node ids), and
`toWireFormat (fromWireFormat D)` is deeply equal to `D` for every wire
document whose nodes carry exactly the canonical `class_type`/`inputs`
shape.  For wire documents outside that shape the second direction fails —
a node document omitting the optional `inputs` key comes back with an
`"inputs": {}` entry added (see the counterexample) — so the two shapes are
not isomorphic over all documents. -/
theorem C2_roundtrip :
    (∀ w : Workflow, (w.nodes.map (fun p => p.1)).Nodup →
      Workflow.from_api_format (Workflow.to_api_format w) = .ok w) ∧
    (∀ d : List (String × Json), d.all (fun p => wireNodeWF p.2) = true →
      (d.map (fun p => p.1)).Nodup →
      ∃ w, Workflow.from_api_format d = .ok w ∧ Workflow.to_api_format w = d) := by
  have hG : ∀ w : Workflow, (w.nodes.map (fun p => p.1)).Nodup →
      Workflow.from_api_format (Workflow.to_api_format w) = .ok w := by
    intro w hnodup
    have hfa := fromApiNodes_dump w.nodes [] hnodup (fun p _ => rfl)
    simp only [Workflow.to_api_format, Workflow.from_api_format, hfa, List.nil_append]
  refine ⟨hG, ?_⟩
  intro d hwf hnodup
  have hwf2 : ∀ p ∈ d, wireNodeWF p.2 = true := fun p hp => List.all_eq_true.mp hwf p hp
  have hd : Workflow.to_api_format ⟨d.map (fun p => (p.1, wireNodeExtract p.2))⟩ = d :=
    toApi_extract d hwf2
  have hkeys : ((d.map (fun p => (p.1, wireNodeExtract p.2))).map (fun p => p.1)).Nodup := by
    rw [List.map_map]
    simpa [Function.comp] using hnodup
  refine ⟨⟨d.map (fun p => (p.1, wireNodeExtract p.2))⟩, ?_, hd⟩
  have hround := hG ⟨d.map (fun p => (p.1, wireNodeExtract p.2))⟩ hkeys
  rw [hd] at hround
  exact hround

/-- Claim C2 as frozen fails on the code: the wire→memory→wire round trip
is not the identity up to key ordering.  A node document without the
optional `inputs` key is accepted by `from_api_format` (pydantic default
`{}`) and serialized back WITH an `"inputs"` key — and reordering keys can
never remove a key, as the two `contains` facts show. -/
theorem C2_cex :
    Workflow.from_api_format [("1", Json.obj [("class_type", Json.str "A")])]
      = .ok ⟨[("1", ⟨"A", []⟩)]⟩ ∧
    Workflow.to_api_format ⟨[("1", ⟨"A", []⟩)]⟩
      = [("1", Json.obj [("class_type", Json.str "A"), ("inputs", Json.obj [])])] ∧
    ([("class_type", Json.str "A")].map (fun p => p.1)).contains "inputs" = false ∧
    (([("class_type", Json.str "A"), ("inputs", Json.obj [])]
        : List (String × Json)).map (fun p => p.1)).contains "inputs" = true :=
  ⟨rfl, rfl, rfl, rfl⟩

/-- Witness for `C2_roundtrip`: both directions at one-node values. -/
theorem C2_witness :
    Workflow.from_api_format (Workflow.to_api_format ⟨[("1", ⟨"A", [("x", Json.int 3)]⟩)]⟩)
      = .ok ⟨[("1", ⟨"A", [("x", Json.int 3)]⟩)]⟩ ∧
    (∃ w, Workflow.from_api_format
        [("1", Json.obj [("class_type", Json.str "A"), ("inputs", Json.obj [])])] = .ok w ∧
      Workflow.to_api_format w
        = [("1", Json.obj [("class_type", Json.str "A"), ("inputs", Json.obj [])])]) :=
  ⟨C2_roundtrip.1 ⟨[("1", ⟨"A", [("x", Json.int 3)]⟩)]⟩ (by simp),
   C2_roundtrip.2 [("1", Json.obj [("class_type", Json.str "A"), ("inputs", Json.obj [])])]
     rfl (by simp)⟩


theorem heapSet_length (h : Heap) (a : Addr) (c : Cell) :
    (heapSet h a c).length = h.length := by
  simp [heapSet]

theorem lookup_heapSet_ne (h : Heap) (a : Addr) (c : Cell) (x : Addr) (hx : x ≠ a) :
    (heapSet h a c).lookup x = h.lookup x := by
  induction h with
  | nil => rfl
  | cons p rest ih =>
      rcases p with ⟨a2, c2⟩
      simp only [heapSet, List.map_cons]
      by_cases he : a2 = a
      · subst he
        rw [if_pos (by simp : ((a2, c2).1 == a2) = true)]
        rw [List.lookup, List.lookup]
        have hb : (x == a2) = false := by simp [hx]
        rw [hb]
        simpa only [heapSet] using ih
      · rw [if_neg (by simp [he] : ¬ (((a2, c2).1 == a) = true))]
        rw [List.lookup, List.lookup]
        cases hxa : x == a2 with
        | true => rfl
        | false => simpa only [heapSet] using ih

mutual

theorem decodeJ_agree (h1 h2 : Heap) (lo hi : Nat)
    (hcl : regionClosedB h1 lo hi = true)
    (hagree : ∀ x, lo ≤ x → x < hi → h2.lookup x = h1.lookup x) :
    ∀ (fuel : Nat) (a : Addr), lo ≤ a → a < hi →
      decodeJ h2 fuel a = decodeJ h1 fuel a
  | 0, _, _, _ => rfl
  | fuel + 1, a, hlo, hhi => by
      simp only [decodeJ]
      rw [hagree a hlo hhi]
      cases hl : h1.lookup a with
      | none => rfl
      | some c =>
          have hmem := mem_of_lookup hl
          have hall := List.all_eq_true.mp hcl _ hmem
          rw [if_pos ⟨hlo, hhi⟩] at hall
          have hrefs : ∀ r ∈ cellRefs c, lo ≤ r ∧ r < hi := by
            intro r hr
            exact of_decide_eq_true (List.all_eq_true.mp hall r hr)
          cases c with
          | scalar v => rfl
          | arrC as =>
              have hr : ∀ r ∈ as, lo ≤ r ∧ r < hi := by
                intro r hrr
                exact hrefs r (by simpa [cellRefs] using hrr)
              exact congrArg (Option.map Json.arr)
                (decodeL_agree h1 h2 lo hi hcl hagree fuel as hr)
          | objC fs =>
              have hr : ∀ p ∈ fs, lo ≤ p.2 ∧ p.2 < hi := by
                intro p hp
                refine hrefs p.2 ?_
                simp only [cellRefs]
                exact List.mem_map_of_mem _ hp
              exact congrArg (Option.map Json.obj)
                (decodeO_agree h1 h2 lo hi hcl hagree fuel fs hr)

theorem decodeL_agree (h1 h2 : Heap) (lo hi : Nat)
    (hcl : regionClosedB h1 lo hi = true)
    (hagree : ∀ x, lo ≤ x → x < hi → h2.lookup x = h1.lookup x) :
    ∀ (fuel : Nat) (as : List Addr), (∀ r ∈ as, lo ≤ r ∧ r < hi) →
      decodeL h2 fuel as = decodeL h1 fuel as
  | fuel, [], _ => by cases fuel <;> rfl
  | 0, _ :: _, _ => rfl
  | fuel + 1, a :: as, hr => by
      simp only [decodeL]
      rw [decodeJ_agree h1 h2 lo hi hcl hagree fuel a
            (hr a (List.mem_cons_self _ _)).1 (hr a (List.mem_cons_self _ _)).2,
          decodeL_agree h1 h2 lo hi hcl hagree fuel as
            (fun r hrr => hr r (List.mem_cons_of_mem _ hrr))]

theorem decodeO_agree (h1 h2 : Heap) (lo hi : Nat)
    (hcl : regionClosedB h1 lo hi = true)
    (hagree : ∀ x, lo ≤ x → x < hi → h2.lookup x = h1.lookup x) :
    ∀ (fuel : Nat) (fs : List (String × Addr)), (∀ p ∈ fs, lo ≤ p.2 ∧ p.2 < hi) →
      decodeO h2 fuel fs = decodeO h1 fuel fs
  | fuel, [], _ => by cases fuel <;> rfl
  | 0, _ :: _, _ => rfl
  | fuel + 1, (k, a) :: fs, hr => by
      simp only [decodeO]
      rw [decodeJ_agree h1 h2 lo hi hcl hagree fuel a
            (hr (k, a) (List.mem_cons_self _ _)).1 (hr (k, a) (List.mem_cons_self _ _)).2,
          decodeO_agree h1 h2 lo hi hcl hagree fuel fs
            (fun p hp => hr p (List.mem_cons_of_mem _ hp))]

end

theorem decode_mutate_frame (h : Heap) (hi : Nat) (root : Addr) (j : Json)
    (hcl : regionClosedB h 0 hi = true) (hroot : root < hi)
    (hdec : decodeJ h (h.length + 1) root = some j) (b : Addr) (c : Cell) (hb : hi ≤ b) :
    decodeJ (heapSet h b c) (h.length + 1) root = some j := by
  rw [← hdec]
  exact decodeJ_agree h (heapSet h b c) 0 hi hcl
    (fun x _ hxh => lookup_heapSet_ne h b c x (Nat.ne_of_lt (Nat.lt_of_lt_of_le hxh hb)))
    (h.length + 1) root (Nat.zero_le _) hroot

theorem get_mutate_frame (h : Heap) (hi n2 : Nat) (root : Addr) (j : Json)
    (hcl : regionClosedB h 0 hi = true) (hroot : root < hi)
    (hdec : decodeJ h (h.length + 1) root = some j) (b : Addr) (c : Cell) (hb : hi ≤ b) :
    get_template_heap (heapSet h b c) n2 root
      = some ((allocJ j n2).1, heapSet h b c ++ (allocJ j n2).2.1, (allocJ j n2).2.2) := by
  rw [get_template_heap, heapSet_length,
      decode_mutate_frame h hi root j hcl hroot hdec b c hb]

/-- Claim C4: for every template name in the catalog, `get` returns a graph
content-equal to the stored catalog entry but structurally independent of
it and of every other call's result: two successive calls return
content-equal values at distinct fresh roots, and mutating any object of a
returned copy (any address outside the catalog region) changes neither the
catalog entry's content nor the result of a subsequent `get`. -/
theorem C4_template_copy :
    ∀ name root g, catalogRoots.lookup name = some root →
      TEMPLATES.lookup name = some g →
      ∃ a1 h1 n1 a2 h2 n2,
        get_template_heap catalogHeap catalogNext root = some (a1, h1, n1) ∧
        get_template_heap h1 n1 root = some (a2, h2, n2) ∧
        a1 ≠ a2 ∧
        decodeJ h2 (h2.length + 1) root = some (.obj g) ∧
        decodeJ h2 (h2.length + 1) a1 = some (.obj g) ∧
        decodeJ h2 (h2.length + 1) a2 = some (.obj g) ∧
        (∀ b c, catalogNext ≤ b →
          decodeJ (heapSet h2 b c) (h2.length + 1) root = some (.obj g) ∧
          get_template_heap (heapSet h2 b c) n2 root
            = some ((allocJ (.obj g) n2).1,
                    heapSet h2 b c ++ (allocJ (.obj g) n2).2.1,
                    (allocJ (.obj g) n2).2.2)) := by
  intro name root g hroot hg
  by_cases hn1 : name = "empty"
  · subst hn1
    rw [show catalogRoots.lookup "empty" = some 0 from rfl] at hroot
    rw [show TEMPLATES.lookup "empty" = some templateEmpty from rfl] at hg
    obtain rfl : (0 : Addr) = root := by injection hroot
    obtain rfl : templateEmpty = g := by injection hg
    refine ⟨_, _, _, _, _, _, rfl, rfl, by decide, rfl, rfl, rfl, ?_⟩
    refine fun b c hb => ⟨?_, ?_⟩
    · refine decode_mutate_frame _ catalogNext _ _ ?_ ?_ ?_ b c hb
      · rfl
      · decide
      · rfl
    · refine get_mutate_frame _ catalogNext _ _ _ ?_ ?_ ?_ b c hb
      · rfl
      · decide
      · rfl
  · by_cases hn2 : name = "fal-flux-dev"
    · subst hn2
      rw [show catalogRoots.lookup "fal-flux-dev" = some 32 from rfl] at hroot
      rw [show TEMPLATES.lookup "fal-flux-dev" = some templateDev from rfl] at hg
      obtain rfl : (32 : Addr) = root := by injection hroot
      obtain rfl : templateDev = g := by injection hg
      refine ⟨_, _, _, _, _, _, rfl, rfl, by decide, rfl, rfl, rfl, ?_⟩
      refine fun b c hb => ⟨?_, ?_⟩
      · refine decode_mutate_frame _ catalogNext _ _ ?_ ?_ ?_ b c hb
        · rfl
        · decide
        · rfl
      · refine get_mutate_frame _ catalogNext _ _ _ ?_ ?_ ?_ b c hb
        · rfl
        · decide
        · rfl
    · by_cases hn3 : name = "fal-flux-schnell"
      · subst hn3
        rw [show catalogRoots.lookup "fal-flux-schnell" = some 48 from rfl] at hroot
        rw [show TEMPLATES.lookup "fal-flux-schnell" = some templateSchnell from rfl] at hg
        obtain rfl : (48 : Addr) = root := by injection hroot
        obtain rfl : templateSchnell = g := by injection hg
        refine ⟨_, _, _, _, _, _, rfl, rfl, by decide, rfl, rfl, rfl, ?_⟩
        refine fun b c hb => ⟨?_, ?_⟩
        · refine decode_mutate_frame _ catalogNext _ _ ?_ ?_ ?_ b c hb
          · rfl
          · decide
          · rfl
        · refine get_mutate_frame _ catalogNext _ _ _ ?_ ?_ ?_ b c hb
          · rfl
          · decide
          · rfl
      · exfalso
        have h1 : (name == "empty") = false := by simp [hn1]
        have h2 : (name == "fal-flux-dev") = false := by simp [hn2]
        have h3 : (name == "fal-flux-schnell") = false := by simp [hn3]
        rw [show catalogRoots
              = [("empty", 0), ("fal-flux-dev", 32), ("fal-flux-schnell", 48)] from rfl]
          at hroot
        rw [List.lookup, h1, List.lookup, h2, List.lookup, h3, List.lookup] at hroot
        exact Option.noConfusion hroot

/-- Witness for `C4_template_copy` at the `"empty"` template. -/
theorem C4_witness :
    catalogRoots.lookup "empty" = some 0 ∧
    TEMPLATES.lookup "empty" = some templateEmpty ∧
    (∃ a1 h1 n1 a2 h2 n2,
      get_template_heap catalogHeap catalogNext 0 = some (a1, h1, n1) ∧
      get_template_heap h1 n1 0 = some (a2, h2, n2) ∧
      a1 ≠ a2 ∧
      decodeJ h2 (h2.length + 1) 0 = some (.obj templateEmpty) ∧
      decodeJ h2 (h2.length + 1) a1 = some (.obj templateEmpty) ∧
      decodeJ h2 (h2.length + 1) a2 = some (.obj templateEmpty) ∧
      (∀ b c, catalogNext ≤ b →
        decodeJ (heapSet h2 b c) (h2.length + 1) 0 = some (.obj templateEmpty) ∧
        get_template_heap (heapSet h2 b c) n2 0
          = some ((allocJ (.obj templateEmpty) n2).1,
                  heapSet h2 b c ++ (allocJ (.obj templateEmpty) n2).2.1,
                  (allocJ (.obj templateEmpty) n2).2.2))) :=
  ⟨rfl, rfl, C4_template_copy "empty" 0 templateEmpty rfl rfl⟩
